import Mathlib

/-!
Verification development for the meeting-usefulness calendar repository.

The FeedbackCollection component (aggregation of post-meeting survey
responses and threshold-based improvement suggestions) is embedded from
the JavaScript source in meeting-usefulness-feedback.txt.  Survey answer
values are modelled after their JavaScript truthiness has been resolved
for boolean questions; numeric answers are rationals; the fixed-option
meeting-length question is modelled by the inductive type carrying the
three options of the standard survey template.  Response objects are
modelled by their data payload (the timestamp attached on submission is
never read by the aggregation code and is elided).
-/

/-- The three fixed options of the meeting_length survey question. -/
inductive MeetingLength where
  | tooShort
  | justRight
  | tooLong
deriving DecidableEq

/-- Payload of one submitted survey response, as read by
getAggregatedFeedback: boolean answers after truthiness, an optional
numeric participation percentage, and an optional length rating. -/
structure ResponseData where
  decision_made : Bool
  action_items : Bool
  participation : Option ℚ
  could_be_async : Bool
  meeting_length : Option MeetingLength
deriving DecidableEq

/-- The JavaScript value stored in the meetingId field of a feedback
record: null, a plain string id, or an object that may carry a
recurringMeetingId property. -/
inductive MeetingIdVal where
  | null
  | str (s : String)
  | obj (recurringMeetingId : Option String)
deriving DecidableEq

/-- JavaScript truthiness of a stored meetingId value: null is falsy,
a string is falsy exactly when empty, an object is always truthy. -/
def MeetingIdVal.truthy : MeetingIdVal → Bool
  | .null => false
  | .str s => !(s == "")
  | .obj _ => true

/-- Reading the recurringMeetingId property: undefined (none) on a
string, the stored optional value on an object.  The null case is never
reached by the source because of short-circuit evaluation, and property
access on null would throw; reading it as absent is sound because the
filter guards it with truthiness. -/
def MeetingIdVal.recurringProp : MeetingIdVal → Option String
  | .null => none
  | .str _ => none
  | .obj r => r

/-- One entry of this.feedbackDatabase. -/
structure FeedbackRecord where
  id : String
  meetingId : MeetingIdVal
  meetingTitle : String
  template : String
  status : String
  responses : List ResponseData
deriving DecidableEq

/-- The lengthRatings map of an aggregate, over the three fixed keys. -/
structure LengthRatings where
  tooShort : Nat
  justRight : Nat
  tooLong : Nat
deriving DecidableEq

/-- Increment of the bucket selected by a meeting_length answer,
modelling aggregated.lengthRatings[response.data.meeting_length]++. -/
def LengthRatings.bump (l : MeetingLength) (lr : LengthRatings) : LengthRatings :=
  match l with
  | .tooShort => { lr with tooShort := lr.tooShort + 1 }
  | .justRight => { lr with justRight := lr.justRight + 1 }
  | .tooLong => { lr with tooLong := lr.tooLong + 1 }

/-- Result shape of getAggregatedFeedback. -/
structure AggregatedFeedback where
  recurringMeetingId : String
  meetingTitle : String
  totalResponses : Nat
  decisionsRate : ℚ
  actionItemsRate : ℚ
  averageParticipation : ℚ
  couldBeAsyncRate : ℚ
  lengthRatings : LengthRatings
deriving DecidableEq

/-- Filter predicate of getAggregatedFeedback, line for line:
fb.meetingId AND fb.meetingId.recurringMeetingId === recurringMeetingId
AND fb.status === "completed" AND fb.responses.length > 0. -/
def matchesAggregation (rid : String) (fb : FeedbackRecord) : Bool :=
  fb.meetingId.truthy && (fb.meetingId.recurringProp == some rid) &&
    (fb.status == "completed") && decide (0 < fb.responses.length)

/-- Mutable counters of the aggregation loop: the aggregated object
contributes totalResponses and lengthRatings, the surrounding local
variables contribute the four accumulators. -/
structure AggState where
  totalResponses : Nat
  decisionCount : Nat
  actionItemsCount : Nat
  participationSum : ℚ
  asyncCount : Nat
  lengthRatings : LengthRatings
deriving DecidableEq

/-- Body of the inner forEach of getAggregatedFeedback.  Each source
statement touches one independent counter; the participation guard
reproduces JavaScript truthiness, under which a supplied value of 0 is
skipped (which leaves the sum unchanged). -/
def applyResponse (st : AggState) (r : ResponseData) : AggState :=
  { totalResponses := st.totalResponses + 1
    decisionCount := st.decisionCount + (if r.decision_made then 1 else 0)
    actionItemsCount := st.actionItemsCount + (if r.action_items then 1 else 0)
    participationSum := st.participationSum +
      (match r.participation with
        | some p => if p = 0 then 0 else p
        | none => 0)
    asyncCount := st.asyncCount + (if r.could_be_async then 1 else 0)
    lengthRatings :=
      match r.meeting_length with
      | some l => LengthRatings.bump l st.lengthRatings
      | none => st.lengthRatings }

/-- Initial counters: all zero. -/
def initAggState : AggState := ⟨0, 0, 0, 0, 0, ⟨0, 0, 0⟩⟩

/-- Embedding of FeedbackCollection.getAggregatedFeedback (the database
this.feedbackDatabase is passed explicitly): filter the records, return
null when nothing matches, otherwise run the two nested forEach loops
and compute the rates under the totalResponses > 0 guard of the source. -/
def getAggregatedFeedback (db : List FeedbackRecord) (rid : String) :
    Option AggregatedFeedback :=
  match db.filter (matchesAggregation rid) with
  | [] => none
  | first :: rest =>
    let st := (first :: rest).foldl
      (fun s fb => fb.responses.foldl applyResponse s) initAggState
    some
      { recurringMeetingId := rid
        meetingTitle := first.meetingTitle
        totalResponses := st.totalResponses
        decisionsRate :=
          if 0 < st.totalResponses then
            (st.decisionCount : ℚ) / (st.totalResponses : ℚ) else 0
        actionItemsRate :=
          if 0 < st.totalResponses then
            (st.actionItemsCount : ℚ) / (st.totalResponses : ℚ) else 0
        averageParticipation :=
          if 0 < st.totalResponses then
            st.participationSum / (st.totalResponses : ℚ) else 0
        couldBeAsyncRate :=
          if 0 < st.totalResponses then
            (st.asyncCount : ℚ) / (st.totalResponses : ℚ) else 0
        lengthRatings := st.lengthRatings }

/-- One improvement suggestion. -/
structure Suggestion where
  area : String
  suggestion : String
  priority : String
deriving DecidableEq

/-- Embedding of generateImprovementSuggestions: the early return on a
null argument or zero totalResponses, then five push statements guarded
by the source thresholds, translated as sequential appends to the local
suggestions array. -/
def generateImprovementSuggestions (a? : Option AggregatedFeedback) :
    List Suggestion :=
  match a? with
  | none => []
  | some a =>
    if a.totalResponses = 0 then []
    else
      let suggestions : List Suggestion := []
      let suggestions :=
        if a.decisionsRate < 0.5 then
          suggestions ++
            [{ area := "Decision Making",
               suggestion := "Include specific decision points in the meeting agenda and ensure they are addressed",
               priority := if a.decisionsRate < 0.2 then "high" else "medium" }]
        else suggestions
      let suggestions :=
        if a.actionItemsRate < 0.6 then
          suggestions ++
            [{ area := "Action Items",
               suggestion := "End each meeting with clear action items assigned to specific individuals",
               priority := if a.actionItemsRate < 0.3 then "high" else "medium" }]
        else suggestions
      let suggestions :=
        if a.averageParticipation < 50 then
          suggestions ++
            [{ area := "Participation",
               suggestion := "Consider reducing the number of participants or use round-robin techniques to ensure everyone contributes",
               priority := if a.averageParticipation < 30 then "high" else "medium" }]
        else suggestions
      let suggestions :=
        if a.couldBeAsyncRate > 0.6 then
          suggestions ++
            [{ area := "Meeting Format",
               suggestion := "Convert this recurring meeting to an asynchronous format using tools like shared documents or structured chat threads",
               priority := if a.couldBeAsyncRate > 0.8 then "high" else "medium" }]
        else suggestions
      let suggestions :=
        if (a.lengthRatings.tooLong : ℚ) > (a.totalResponses : ℚ) * 0.5 then
          suggestions ++
            [{ area := "Meeting Length",
               suggestion := "Reduce the meeting duration and create a more focused agenda",
               priority := "high" }]
        else if (a.lengthRatings.tooShort : ℚ) > (a.totalResponses : ℚ) * 0.5 then
          suggestions ++
            [{ area := "Meeting Length",
               suggestion := "Consider allocating more time to allow for more thorough discussion",
               priority := "medium" }]
        else suggestions
      suggestions

/-- The JavaScript expression meeting.id || null used by scheduleFeedback:
a falsy id (absent, null, empty string) is stored as null. -/
def jsOrNull : Option MeetingIdVal → MeetingIdVal
  | none => .null
  | some v => if v.truthy then v else .null

/-- Keys of this.surveyTemplates after createDefaultTemplates has run
(custom templates registered through createCustomTemplate are outside
the claims considered here). -/
def defaultTemplateNames : List String := ["standard", "brief", "detailed"]

/-- Lower-casing of a string, character by character, modelling the
JavaScript toLowerCase call on template names. -/
def lowerString (s : String) : String := ⟨s.data.map Char.toLower⟩

/-- The fields of the meeting argument that scheduleFeedback reads when
building a record (endTime only feeds the elided scheduledTime). -/
structure ScheduleInput where
  id : Option MeetingIdVal
  title : String
deriving DecidableEq

/-- Embedding of FeedbackCollection.scheduleFeedback: looks the template
up by lower-cased name (an unknown template throws, which the catch
turns into null and no record is stored), otherwise pushes a fresh
record with meetingId := meeting.id || null, status scheduled and no
responses.  The randomly generated feedback id is passed explicitly. -/
def scheduleFeedback (db : List FeedbackRecord) (fid : String)
    (m : ScheduleInput) (templateName : String) :
    List FeedbackRecord × Option FeedbackRecord :=
  if lowerString templateName ∈ defaultTemplateNames then
    let record : FeedbackRecord :=
      { id := fid, meetingId := jsOrNull m.id, meetingTitle := m.title,
        template := templateName, status := "scheduled", responses := [] }
    (db ++ [record], some record)
  else (db, none)

/-- Embedding of FeedbackCollection.submitFeedback: findIndex on the id,
push the response payload onto that record and set its status to
completed; when the id is absent the throw is caught and the database is
left unchanged with a false result. -/
def submitFeedback (db : List FeedbackRecord) (fid : String)
    (resp : ResponseData) : List FeedbackRecord × Bool :=
  let i := db.findIdx (fun fb => fb.id == fid)
  if h : i < db.length then
    let fb := db.get ⟨i, h⟩
    (db.set i { fb with responses := fb.responses ++ [resp],
                        status := "completed" }, true)
  else (db, false)

/-- State-passing form of the getAggregatedFeedback method: its body
reads this.feedbackDatabase through filter and forEach and writes only
the local aggregated object and counters, so the database component of
the state is the one it was called with. -/
def getAggregatedFeedbackM (db : List FeedbackRecord) (rid : String) :
    List FeedbackRecord × Option AggregatedFeedback :=
  (db, getAggregatedFeedback db rid)

/-- State-passing form of the generateImprovementSuggestions method: its
body never touches this.feedbackDatabase at all (it reads only its
argument and the local suggestions array). -/
def generateImprovementSuggestionsM (db : List FeedbackRecord)
    (a? : Option AggregatedFeedback) :
    List FeedbackRecord × List Suggestion :=
  (db, generateImprovementSuggestions a?)

/-- Records considered by an aggregation call: matching recurring id,
completed, with at least one response. -/
def matchingRecords (db : List FeedbackRecord) (rid : String) :
    List FeedbackRecord :=
  db.filter (matchesAggregation rid)

/-- All response payloads across the matching records, in order. -/
def pooledResponses (db : List FeedbackRecord) (rid : String) :
    List ResponseData :=
  ((matchingRecords db rid).map (fun fb => fb.responses)).flatten

/-- Rule-based description of the suggestion list, written from the
specification: one suggestion per rule whose condition holds, in the
fixed order R1, R2, R3, R4, R5a/R5b, with R5b evaluated only when R5a
does not fire. -/
def ruleBasedSuggestions (a : AggregatedFeedback) : List Suggestion :=
  (if a.decisionsRate < 0.5 then
    [{ area := "Decision Making",
       suggestion := "Include specific decision points in the meeting agenda and ensure they are addressed",
       priority := if a.decisionsRate < 0.2 then "high" else "medium" }]
   else []) ++
  (if a.actionItemsRate < 0.6 then
    [{ area := "Action Items",
       suggestion := "End each meeting with clear action items assigned to specific individuals",
       priority := if a.actionItemsRate < 0.3 then "high" else "medium" }]
   else []) ++
  (if a.averageParticipation < 50 then
    [{ area := "Participation",
       suggestion := "Consider reducing the number of participants or use round-robin techniques to ensure everyone contributes",
       priority := if a.averageParticipation < 30 then "high" else "medium" }]
   else []) ++
  (if a.couldBeAsyncRate > 0.6 then
    [{ area := "Meeting Format",
       suggestion := "Convert this recurring meeting to an asynchronous format using tools like shared documents or structured chat threads",
       priority := if a.couldBeAsyncRate > 0.8 then "high" else "medium" }]
   else []) ++
  (if (a.lengthRatings.tooLong : ℚ) > (a.totalResponses : ℚ) * 0.5 then
    [{ area := "Meeting Length",
       suggestion := "Reduce the meeting duration and create a more focused agenda",
       priority := "high" }]
   else if (a.lengthRatings.tooShort : ℚ) > (a.totalResponses : ℚ) * 0.5 then
    [{ area := "Meeting Length",
       suggestion := "Consider allocating more time to allow for more thorough discussion",
       priority := "medium" }]
   else [])

/-- Modelled from the spec: the Meeting input of MeetingScorer, whose
implementation (meeting-usefulness-ai.js) is not part of the source
tree; the optional decisionMade and followUpSent fields are booleans
with false standing for unknown, which the spec makes contribute
nothing. -/
structure Meeting where
  title : String
  duration : ℤ
  participantCount : Nat
  expectedSpeakerCount : Nat
  hasAgenda : Bool
  decisionMade : Bool
  followUpSent : Bool
  couldBeAsync : Bool
deriving DecidableEq

/-- Modelled from the spec: ScoreWeights, the named factor weights
(field xW carries the weight the source calls X, e.g. decisionMadeW for
DECISION_MADE) plus the long-meeting threshold and the two band cut
points. -/
structure ScoreWeights where
  decisionMadeW : ℚ
  agendaProvidedW : ℚ
  followUpSentW : ℚ
  couldBeAsyncW : ℚ
  participationRatioW : ℚ
  longMeetingPenaltyW : ℚ
  longMeetingMinutes : ℚ
  highBand : ℚ
  mediumBand : ℚ
deriving DecidableEq

/-- Modelled from the spec: the default instance, weights from the
README configuration block; the spec states no numeric defaults for the
band cut points, so 70 and 40 are chosen, consistent with scenario A
(93 is high) and scenario B (38 is low). -/
def defaultWeights : ScoreWeights :=
  ⟨30, 15, 20, -25, 20, -10, 60, 70, 40⟩

/-- Modelled from the spec: the three ValidationError causes of the
scorer. -/
inductive ValidationIssue where
  | nonPositiveDuration
  | noParticipants
  | tooManySpeakers
deriving DecidableEq

/-- Modelled from the spec: the scorer validation, failing when
duration is nonpositive, participantCount is below one, or
expectedSpeakerCount exceeds participantCount. -/
def validateMeeting (m : Meeting) : Option ValidationIssue :=
  if m.duration ≤ 0 then some .nonPositiveDuration
  else if m.participantCount < 1 then some .noParticipants
  else if m.participantCount < m.expectedSpeakerCount then some .tooManySpeakers
  else none

/-- Validity of a meeting, stated as the claims state it. -/
def validMeeting (m : Meeting) : Prop :=
  0 < m.duration ∧ 1 ≤ m.participantCount ∧
    m.expectedSpeakerCount ≤ m.participantCount

instance (m : Meeting) : Decidable (validMeeting m) :=
  inferInstanceAs (Decidable (_ ∧ _ ∧ _))

/-- Modelled from the spec: the MeetingEvaluation output shape. -/
structure MeetingEvaluation where
  score : ℚ
  band : String
  contributingFactors : List (String × ℚ)
  recommendation : String
deriving DecidableEq

/-- Modelled from the spec: MeetingScorer.score, base 50, the six
contributions in their fixed order, clamp to the 0 to 100 range, band
classification with ties to the higher band, and the recommendation
derivation. -/
def scoreMeeting (m : Meeting) (w : ScoreWeights) :
    Except ValidationIssue MeetingEvaluation :=
  match validateMeeting m with
  | some e => .error e
  | none =>
    let c1 : ℚ := if m.decisionMade then w.decisionMadeW else 0
    let c2 : ℚ := if m.hasAgenda then w.agendaProvidedW else 0
    let c3 : ℚ := if m.followUpSent then w.followUpSentW else 0
    let c4 : ℚ := if m.couldBeAsync then w.couldBeAsyncW else 0
    let pr : ℚ := if m.participantCount = 0 then 0
      else (m.expectedSpeakerCount : ℚ) / (m.participantCount : ℚ)
    let c5 : ℚ := w.participationRatioW * pr
    let c6 : ℚ := if w.longMeetingMinutes < (m.duration : ℚ) then
      w.longMeetingPenaltyW else 0
    let total : ℚ := 50 + c1 + c2 + c3 + c4 + c5 + c6
    let score : ℚ := max 0 (min 100 total)
    let band : String := if w.highBand ≤ score then "high"
      else if w.mediumBand ≤ score then "medium" else "low"
    let recommend : String :=
      if band == "low" && !m.couldBeAsync then "consider-decline"
      else if m.couldBeAsync && band != "high" then "consider-async"
      else "keep"
    .ok { score := score, band := band,
          contributingFactors :=
            [("DECISION_MADE", c1), ("AGENDA_PROVIDED", c2),
             ("FOLLOW_UP_SENT", c3), ("COULD_BE_ASYNC", c4),
             ("PARTICIPATION_RATIO", c5), ("LONG_MEETING_PENALTY", c6)],
          recommendation := recommend }

/-- Modelled from the spec: a ValidationError of the batch evaluator,
the per-meeting issue with the offending position attached. -/
structure IndexedError where
  index : Nat
  issue : ValidationIssue
deriving DecidableEq

/-- Modelled from the spec: the CalendarSummary output shape, with
averageScore absent rather than NaN on an empty batch. -/
structure CalendarSummary where
  evaluations : List MeetingEvaluation
  meetingCount : Nat
  totalMinutes : ℤ
  averageScore : Option ℚ
  lowValueMinutes : ℤ
  reclaimableMinutes : ℤ
deriving DecidableEq

/-- Modelled from the spec: the scoring pass of evaluateAll, in input
order, failing fast at the first meeting the scorer rejects. -/
def evaluateAllGo (w : ScoreWeights) (i : Nat) :
    List Meeting → Except IndexedError (List (Meeting × MeetingEvaluation))
  | [] => .ok []
  | m :: rest =>
    match scoreMeeting m w with
    | .error e => .error ⟨i, e⟩
    | .ok ev =>
      match evaluateAllGo w (i + 1) rest with
      | .error e => .error e
      | .ok tl => .ok ((m, ev) :: tl)

/-- Modelled from the spec: CalendarEvaluator.evaluateAll, the scoring
pass followed by the calendar aggregates of the data model. -/
def evaluateAll (ms : List Meeting) (w : ScoreWeights) :
    Except IndexedError CalendarSummary :=
  match evaluateAllGo w 0 ms with
  | .error e => .error e
  | .ok pairs =>
    let evals := pairs.map (fun p => p.2)
    let count := pairs.length
    let total := (pairs.map (fun p => p.1.duration)).sum
    let avg : Option ℚ := if count = 0 then none
      else some ((evals.map (fun ev => ev.score)).sum / (count : ℚ))
    let lowMinutes := ((pairs.filter (fun p => p.2.band == "low")).map
      (fun p => p.1.duration)).sum
    let reclaimable := ((pairs.filter (fun p =>
      p.2.recommendation == "consider-decline" ||
      p.2.recommendation == "consider-async")).map
      (fun p => p.1.duration)).sum
    .ok { evaluations := evals, meetingCount := count,
          totalMinutes := total, averageScore := avg,
          lowValueMinutes := lowMinutes, reclaimableMinutes := reclaimable }

/-- Meeting of concrete scenario A of the spec. -/
def scenarioA : Meeting :=
  ⟨"Scenario A", 90, 10, 4, true, true, false, false⟩

/-- Meeting of concrete scenario B of the spec: scenario A with
couldBeAsync true and decisionMade false. -/
def scenarioB : Meeting :=
  ⟨"Scenario B", 90, 10, 4, true, false, false, true⟩

/-- Aggregate of concrete scenario C of the spec. -/
def scenarioC : AggregatedFeedback :=
  ⟨"rec", "Scenario C", 10, 0.1, 0.9, 25, 0.9, ⟨1, 3, 6⟩⟩

/-- Witness record for C3 and C4: completed with a response, but its
meetingId is a plain string, so no aggregation matches it. -/
def strRecord : FeedbackRecord :=
  ⟨"fb-2", .str "meeting-1", "Weekly", "standard", "completed",
    [⟨true, true, some 80, false, some .justRight⟩]⟩

/-- Witness record matching the aggregation of rec-123: an object
meetingId carrying the recurring id, completed, two responses. -/
def objRecord : FeedbackRecord :=
  ⟨"fb-1", .obj (some "rec-123"), "Weekly", "standard", "completed",
    [⟨true, true, some 80, false, some .justRight⟩,
     ⟨false, false, some 0, true, some .tooLong⟩]⟩

/-- Aggregate with a zero response count, for the C4 witness. -/
def zeroAgg : AggregatedFeedback := ⟨"rec", "t", 0, 0, 0, 0, 0, ⟨0, 0, 0⟩⟩

/-- Two records equal up to a permutation of their responses. -/
def RecordPerm (r r' : FeedbackRecord) : Prop :=
  r.id = r'.id ∧ r.meetingId = r'.meetingId ∧
    r.meetingTitle = r'.meetingTitle ∧ r.template = r'.template ∧
    r.status = r'.status ∧ r.responses.Perm r'.responses

/-- Two databases equal up to a permutation of the records and a
permutation of the responses within each record. -/
def DbPerm (db db' : List FeedbackRecord) : Prop :=
  ∃ mid, List.Forall₂ RecordPerm db mid ∧ mid.Perm db'

/-- The order-insensitive numeric fields of an aggregate. -/
def aggNumerics (a : AggregatedFeedback) :
    Nat × ℚ × ℚ × ℚ × ℚ × LengthRatings :=
  (a.totalResponses, a.decisionsRate, a.actionItemsRate,
    a.averageParticipation, a.couldBeAsyncRate, a.lengthRatings)

/-- Witness data for C5: two distinct responses. -/
def respX : ResponseData := ⟨true, false, some 60, false, some .tooLong⟩

/-- Witness data for C5: a second response. -/
def respY : ResponseData := ⟨false, true, some 20, true, some .tooShort⟩

/-- Witness data for C5: record with responses in one order. -/
def wr1 : FeedbackRecord :=
  ⟨"fb-1", .obj (some "rec-9"), "T", "standard", "completed", [respX, respY]⟩

/-- Witness data for C5: wr1 with its responses reversed. -/
def wr1x : FeedbackRecord :=
  ⟨"fb-1", .obj (some "rec-9"), "T", "standard", "completed", [respY, respX]⟩

/-- Witness data for C5: a second matching record. -/
def wr2 : FeedbackRecord :=
  ⟨"fb-2", .obj (some "rec-9"), "T", "standard", "completed", [respX]⟩

/-- Record produced by the C10 witness scheduling call. -/
def schedRec : FeedbackRecord :=
  ⟨"fb-9", .str "meeting-1", "Weekly", "standard", "scheduled", []⟩

/-- Invalid meeting for the C9 witness: zero duration. -/
def badMeeting : Meeting := ⟨"Bad", 0, 1, 0, false, false, false, false⟩

/-! Helper lemmas shared by the claim theorems. -/

theorem filter_insert_not_matching (rid : String) (r : FeedbackRecord)
    (h : matchesAggregation rid r = false) (xs ys : List FeedbackRecord) :
    (xs ++ r :: ys).filter (matchesAggregation rid) =
      (xs ++ ys).filter (matchesAggregation rid) := by
  simp [List.filter_append, List.filter_cons, h]

theorem gAF_insert_not_matching (rid : String) (r : FeedbackRecord)
    (h : matchesAggregation rid r = false) (xs ys : List FeedbackRecord) :
    getAggregatedFeedback (xs ++ r :: ys) rid =
      getAggregatedFeedback (xs ++ ys) rid := by
  unfold getAggregatedFeedback
  rw [filter_insert_not_matching rid r h xs ys]

theorem push_one_if {α : Type} (c : Prop) [Decidable c] (l : List α) (x : α) :
    (if c then l ++ [x] else l) = l ++ (if c then [x] else []) := by
  split <;> simp

theorem push_two_if {α : Type} (c d : Prop) [Decidable c] [Decidable d]
    (l : List α) (x y : α) :
    (if c then l ++ [x] else if d then l ++ [y] else l) =
      l ++ (if c then [x] else if d then [y] else []) := by
  split
  · simp
  · split <;> simp

set_option maxHeartbeats 2000000 in
/-- C1: for every aggregate with a positive response count, the
suggestion engine returns exactly the suggestions whose rule condition
holds, in the fixed order R1, R2, R3, R4, R5a/R5b, with the priorities
of the rule table and R5b evaluated only when R5a does not fire. -/
theorem suggestion_engine_rule_form (a : AggregatedFeedback)
    (h : 0 < a.totalResponses) :
    generateImprovementSuggestions (some a) = ruleBasedSuggestions a := by
  have h0 : ¬ a.totalResponses = 0 := Nat.pos_iff_ne_zero.mp h
  simp only [generateImprovementSuggestions, ruleBasedSuggestions, if_neg h0]
  split_ifs <;>
    simp only [List.nil_append, List.append_nil, List.cons_append,
      List.append_assoc, List.singleton_append]

/-- Witness for C1 at concrete scenario C of the spec. -/
theorem suggestion_engine_rule_form_witness :
    generateImprovementSuggestions (some scenarioC) =
      ruleBasedSuggestions scenarioC :=
  suggestion_engine_rule_form scenarioC (by decide)

/-- C3: aggregation considers exactly the records that match the
recurring id, are completed, and hold at least one response; a record
failing that predicate contributes nothing wherever it sits in the
database. -/
theorem aggregation_considers_only_matching (db xs ys : List FeedbackRecord)
    (r : FeedbackRecord) (rid : String)
    (h : matchesAggregation rid r = false) :
    getAggregatedFeedback db rid =
      getAggregatedFeedback (matchingRecords db rid) rid ∧
    getAggregatedFeedback (xs ++ r :: ys) rid =
      getAggregatedFeedback (xs ++ ys) rid := by
  constructor
  · have hidem : (matchingRecords db rid).filter (matchesAggregation rid) =
        db.filter (matchesAggregation rid) :=
      List.filter_eq_self.mpr (fun a ha => List.of_mem_filter ha)
    unfold getAggregatedFeedback
    rw [hidem]
  · exact gAF_insert_not_matching rid r h xs ys


/-- Witness for C3 at a concrete database. -/
theorem aggregation_considers_only_matching_witness :
    getAggregatedFeedback [strRecord] "rec-123" =
      getAggregatedFeedback (matchingRecords [strRecord] "rec-123") "rec-123" ∧
    getAggregatedFeedback ([] ++ strRecord :: []) "rec-123" =
      getAggregatedFeedback ([] ++ []) "rec-123" :=
  aggregation_considers_only_matching [strRecord] [] [] strRecord "rec-123"
    (by decide)

/-- C6: the aggregation and suggestion methods leave the feedback
database component of the state exactly as they found it; compare
submitFeedback, whose state component does change. -/
theorem aggregation_and_suggestions_read_only (db : List FeedbackRecord)
    (rid : String) (a? : Option AggregatedFeedback) :
    (getAggregatedFeedbackM db rid).1 = db ∧
    (generateImprovementSuggestionsM db a?).1 = db :=
  ⟨rfl, rfl⟩

theorem totalResponses_foldl (rs : List ResponseData) (st : AggState) :
    (rs.foldl applyResponse st).totalResponses =
      st.totalResponses + rs.length := by
  induction rs generalizing st with
  | nil => simp
  | cons r rs ih =>
    rw [List.foldl_cons, ih]
    simp only [applyResponse, List.length_cons]
    omega

theorem decisionCount_foldl (rs : List ResponseData) (st : AggState) :
    (rs.foldl applyResponse st).decisionCount =
      st.decisionCount + rs.countP (fun r => r.decision_made) := by
  induction rs generalizing st with
  | nil => simp
  | cons r rs ih =>
    rw [List.foldl_cons, ih]
    simp only [applyResponse, List.countP_cons]
    cases r.decision_made <;> simp <;> omega

theorem actionItemsCount_foldl (rs : List ResponseData) (st : AggState) :
    (rs.foldl applyResponse st).actionItemsCount =
      st.actionItemsCount + rs.countP (fun r => r.action_items) := by
  induction rs generalizing st with
  | nil => simp
  | cons r rs ih =>
    rw [List.foldl_cons, ih]
    simp only [applyResponse, List.countP_cons]
    cases r.action_items <;> simp <;> omega

theorem asyncCount_foldl (rs : List ResponseData) (st : AggState) :
    (rs.foldl applyResponse st).asyncCount =
      st.asyncCount + rs.countP (fun r => r.could_be_async) := by
  induction rs generalizing st with
  | nil => simp
  | cons r rs ih =>
    rw [List.foldl_cons, ih]
    simp only [applyResponse, List.countP_cons]
    cases r.could_be_async <;> simp <;> omega

theorem participationSum_foldl (rs : List ResponseData) (st : AggState) :
    (rs.foldl applyResponse st).participationSum =
      st.participationSum + (rs.filterMap (fun r => r.participation)).sum := by
  induction rs generalizing st with
  | nil => simp
  | cons r rs ih =>
    rw [List.foldl_cons, ih]
    simp only [applyResponse, List.filterMap_cons]
    rcases hp : r.participation with _ | p
    · simp
    · rcases eq_or_ne p 0 with h0 | h0 <;> simp [h0] <;> ring

theorem lengthRatings_foldl (rs : List ResponseData) (st : AggState) :
    (rs.foldl applyResponse st).lengthRatings =
      ⟨st.lengthRatings.tooShort +
          rs.countP (fun r => r.meeting_length == some .tooShort),
        st.lengthRatings.justRight +
          rs.countP (fun r => r.meeting_length == some .justRight),
        st.lengthRatings.tooLong +
          rs.countP (fun r => r.meeting_length == some .tooLong)⟩ := by
  induction rs generalizing st with
  | nil => simp
  | cons r rs ih =>
    rw [List.foldl_cons, ih]
    simp only [applyResponse, List.countP_cons]
    rcases hml : r.meeting_length with _ | l
    · simp [hml]
    · cases l <;> simp [hml, LengthRatings.bump] <;> omega

theorem buckets_cover (rs : List ResponseData) :
    rs.countP (fun r => r.meeting_length == some .tooShort) +
      rs.countP (fun r => r.meeting_length == some .justRight) +
      rs.countP (fun r => r.meeting_length == some .tooLong) =
      rs.countP (fun r => r.meeting_length.isSome) := by
  induction rs with
  | nil => rfl
  | cons r rs ih =>
    simp only [List.countP_cons]
    rcases hml : r.meeting_length with _ | l
    · simp [hml, ih]
    · cases l <;> simp [hml] <;> omega

theorem foldl_over_records (items : List FeedbackRecord) (st : AggState) :
    items.foldl (fun s fb => fb.responses.foldl applyResponse s) st =
      ((items.map (fun fb => fb.responses)).flatten).foldl applyResponse st := by
  induction items generalizing st with
  | nil => rfl
  | cons fb items ih =>
    simp only [List.foldl_cons, List.map_cons, List.flatten_cons,
      List.foldl_append]
    exact ih (fb.responses.foldl applyResponse st)

theorem getAggregatedFeedback_eq (db : List FeedbackRecord) (rid : String)
    (first : FeedbackRecord) (rest : List FeedbackRecord)
    (hm : db.filter (matchesAggregation rid) = first :: rest) :
    getAggregatedFeedback db rid =
      some { recurringMeetingId := rid
             meetingTitle := first.meetingTitle
             totalResponses :=
               (((first :: rest).map (fun fb => fb.responses)).flatten).length
             decisionsRate :=
               (let P := ((first :: rest).map (fun fb => fb.responses)).flatten
                if 0 < P.length then
                  ((P.countP (fun r => r.decision_made) : ℚ) / (P.length : ℚ))
                else 0)
             actionItemsRate :=
               (let P := ((first :: rest).map (fun fb => fb.responses)).flatten
                if 0 < P.length then
                  ((P.countP (fun r => r.action_items) : ℚ) / (P.length : ℚ))
                else 0)
             averageParticipation :=
               (let P := ((first :: rest).map (fun fb => fb.responses)).flatten
                if 0 < P.length then
                  ((P.filterMap (fun r => r.participation)).sum / (P.length : ℚ))
                else 0)
             couldBeAsyncRate :=
               (let P := ((first :: rest).map (fun fb => fb.responses)).flatten
                if 0 < P.length then
                  ((P.countP (fun r => r.could_be_async) : ℚ) / (P.length : ℚ))
                else 0)
             lengthRatings :=
               (let P := ((first :: rest).map (fun fb => fb.responses)).flatten
                ⟨P.countP (fun r => r.meeting_length == some .tooShort),
                 P.countP (fun r => r.meeting_length == some .justRight),
                 P.countP (fun r => r.meeting_length == some .tooLong)⟩) } := by
  unfold getAggregatedFeedback
  rw [hm]
  simp only [foldl_over_records, totalResponses_foldl, decisionCount_foldl,
    actionItemsCount_foldl, asyncCount_foldl, participationSum_foldl,
    lengthRatings_foldl, initAggState, Nat.zero_add, zero_add]

/-- C2: on a non-empty matching set, the aggregate counts every response
of every matching record, each rate is the corresponding truthy count
divided by totalResponses (hence within the unit interval), the average
participation is the sum of supplied participation values divided by
totalResponses, and the three length buckets sum to the number of
responses that answered meeting_length. -/
theorem feedback_aggregation_rates (db : List FeedbackRecord) (rid : String)
    (h : matchingRecords db rid ≠ []) :
    ∃ a, getAggregatedFeedback db rid = some a ∧
      a.totalResponses = (pooledResponses db rid).length ∧
      (a.decisionsRate =
          ((pooledResponses db rid).countP (fun r => r.decision_made) : ℚ) /
            ((pooledResponses db rid).length : ℚ) ∧
        0 ≤ a.decisionsRate ∧ a.decisionsRate ≤ 1) ∧
      (a.actionItemsRate =
          ((pooledResponses db rid).countP (fun r => r.action_items) : ℚ) /
            ((pooledResponses db rid).length : ℚ) ∧
        0 ≤ a.actionItemsRate ∧ a.actionItemsRate ≤ 1) ∧
      (a.couldBeAsyncRate =
          ((pooledResponses db rid).countP (fun r => r.could_be_async) : ℚ) /
            ((pooledResponses db rid).length : ℚ) ∧
        0 ≤ a.couldBeAsyncRate ∧ a.couldBeAsyncRate ≤ 1) ∧
      a.averageParticipation =
        ((pooledResponses db rid).filterMap (fun r => r.participation)).sum /
          ((pooledResponses db rid).length : ℚ) ∧
      a.lengthRatings.tooShort + a.lengthRatings.justRight +
          a.lengthRatings.tooLong =
        (pooledResponses db rid).countP (fun r => r.meeting_length.isSome) := by
  rcases hm : matchingRecords db rid with _ | ⟨first, rest⟩
  · exact absurd hm h
  have hm' : db.filter (matchesAggregation rid) = first :: rest := hm
  have hPdef : pooledResponses db rid =
      ((first :: rest).map (fun fb => fb.responses)).flatten := by
    unfold pooledResponses
    rw [hm]
  have hfirstmem : first ∈ db.filter (matchesAggregation rid) := by
    rw [hm']
    exact List.mem_cons_self _ _
  have hfirst := (List.mem_filter.mp hfirstmem).2
  have hlen1 : 0 < first.responses.length := by
    simp only [matchesAggregation, Bool.and_eq_true, decide_eq_true_eq]
      at hfirst
    exact hfirst.2
  have hlenF :
      0 < (((first :: rest).map (fun fb => fb.responses)).flatten).length := by
    simp only [List.map_cons, List.flatten_cons, List.length_append]
    omega
  have hn : (0 : ℚ) <
      ((((first :: rest).map (fun fb => fb.responses)).flatten).length : ℚ) :=
    Nat.cast_pos.mpr hlenF
  refine ⟨_, getAggregatedFeedback_eq db rid first rest hm',
    ?_, ⟨?_, ?_, ?_⟩, ⟨?_, ?_, ?_⟩, ⟨?_, ?_, ?_⟩, ?_, ?_⟩
  · rw [hPdef]
  · rw [hPdef]
    simp only [if_pos hlenF]
  · simp only [if_pos hlenF]
    positivity
  · simp only [if_pos hlenF]
    exact (div_le_one hn).mpr (Nat.cast_le.mpr (List.countP_le_length _))
  · rw [hPdef]
    simp only [if_pos hlenF]
  · simp only [if_pos hlenF]
    positivity
  · simp only [if_pos hlenF]
    exact (div_le_one hn).mpr (Nat.cast_le.mpr (List.countP_le_length _))
  · rw [hPdef]
    simp only [if_pos hlenF]
  · simp only [if_pos hlenF]
    positivity
  · simp only [if_pos hlenF]
    exact (div_le_one hn).mpr (Nat.cast_le.mpr (List.countP_le_length _))
  · rw [hPdef]
    simp only [if_pos hlenF]
  · rw [hPdef]
    exact buckets_cover _


/-- Witness for C2 at a concrete database. -/
theorem feedback_aggregation_rates_witness :
    ∃ a, getAggregatedFeedback [objRecord, strRecord] "rec-123" = some a ∧
      a.totalResponses =
        (pooledResponses [objRecord, strRecord] "rec-123").length := by
  obtain ⟨a, ha, ht, -⟩ :=
    feedback_aggregation_rates [objRecord, strRecord] "rec-123" (by decide)
  exact ⟨a, ha, ht⟩

/-- C4: aggregation and suggestion generation are total functions with
no failure modes: an empty matching set yields the absent aggregate, a
present aggregate always has a positive response count (so every rate
divides by a positive denominator and no NaN can arise), and the
suggestion engine returns the empty list on an absent aggregate or a
zero response count. -/
theorem aggregation_never_fails (db : List FeedbackRecord) (rid : String) :
    (matchingRecords db rid = [] → getAggregatedFeedback db rid = none) ∧
    (∀ a, getAggregatedFeedback db rid = some a → 0 < a.totalResponses) ∧
    generateImprovementSuggestions none = [] ∧
    (∀ a, a.totalResponses = 0 →
      generateImprovementSuggestions (some a) = []) := by
  refine ⟨?_, ?_, rfl, ?_⟩
  · intro h0
    unfold getAggregatedFeedback
    rw [show db.filter (matchesAggregation rid) = [] from h0]
  · intro a ha
    rcases hm : matchingRecords db rid with _ | ⟨first, rest⟩
    · unfold getAggregatedFeedback at ha
      rw [show db.filter (matchesAggregation rid) = [] from hm] at ha
      exact absurd ha (by simp)
    · rw [getAggregatedFeedback_eq db rid first rest hm] at ha
      have hfirstmem : first ∈ db.filter (matchesAggregation rid) := by
        rw [show db.filter (matchesAggregation rid) = first :: rest from hm]
        exact List.mem_cons_self _ _
      have hfirst := (List.mem_filter.mp hfirstmem).2
      have hlen1 : 0 < first.responses.length := by
        simp only [matchesAggregation, Bool.and_eq_true, decide_eq_true_eq]
          at hfirst
        exact hfirst.2
      have ha' := (Option.some_inj.mp ha).symm
      rw [ha']
      simp only [List.map_cons, List.flatten_cons, List.length_append]
      omega
  · intro a h0
    simp [generateImprovementSuggestions, h0]


/-- Witness for C4 at a concrete database with no matching record. -/
theorem aggregation_never_fails_witness :
    getAggregatedFeedback [strRecord] "rec-123" = none ∧
    generateImprovementSuggestions none = [] ∧
    generateImprovementSuggestions (some zeroAgg) = [] := by
  obtain ⟨h1, -, h3, h4⟩ := aggregation_never_fails [strRecord] "rec-123"
  exact ⟨h1 (by decide), h3, h4 zeroAgg rfl⟩




theorem matches_of_recordPerm (rid : String) {r r' : FeedbackRecord}
    (h : RecordPerm r r') :
    matchesAggregation rid r = matchesAggregation rid r' := by
  obtain ⟨-, h2, -, -, h5, h6⟩ := h
  simp [matchesAggregation, h2, h5, h6.length_eq]

theorem filter_forall2 {db mid : List FeedbackRecord}
    (h : List.Forall₂ RecordPerm db mid) (rid : String) :
    List.Forall₂ RecordPerm (db.filter (matchesAggregation rid))
      (mid.filter (matchesAggregation rid)) := by
  induction h with
  | nil => exact .nil
  | @cons a b l1 l2 hr htail ih =>
    rw [List.filter_cons, List.filter_cons,
      ← matches_of_recordPerm rid hr]
    by_cases hc : matchesAggregation rid a
    · simp only [hc, if_pos]
      exact .cons hr ih
    · simp only [hc, if_neg, Bool.false_eq_true, ite_false]
      exact ih

theorem flatten_perm_of_forall2 {l1 l2 : List FeedbackRecord}
    (h : List.Forall₂ RecordPerm l1 l2) :
    ((l1.map (fun fb => fb.responses)).flatten).Perm
      ((l2.map (fun fb => fb.responses)).flatten) := by
  induction h with
  | nil => exact .refl _
  | cons hr htail ih =>
    simp only [List.map_cons, List.flatten_cons]
    exact hr.2.2.2.2.2.append ih

theorem pooled_perm_of_dbPerm {db db' : List FeedbackRecord}
    (h : DbPerm db db') (rid : String) :
    (pooledResponses db rid).Perm (pooledResponses db' rid) := by
  obtain ⟨mid, hf, hp⟩ := h
  have p1 := flatten_perm_of_forall2 (filter_forall2 hf rid)
  have p2 := ((hp.filter (matchesAggregation rid)).map
    (fun fb => fb.responses)).flatten
  unfold pooledResponses matchingRecords
  exact p1.trans p2

theorem matching_length_of_dbPerm {db db' : List FeedbackRecord}
    (h : DbPerm db db') (rid : String) :
    (matchingRecords db rid).length = (matchingRecords db' rid).length := by
  obtain ⟨mid, hf, hp⟩ := h
  unfold matchingRecords
  exact ((filter_forall2 hf rid).length_eq).trans
    (hp.filter (matchesAggregation rid)).length_eq

/-- C5: the numeric aggregate fields are invariant under permuting the
record collection and permuting the responses within each record. -/
theorem aggregation_order_invariant (db db' : List FeedbackRecord)
    (h : DbPerm db db') (rid : String) :
    Option.map aggNumerics (getAggregatedFeedback db rid) =
      Option.map aggNumerics (getAggregatedFeedback db' rid) := by
  have hpool := pooled_perm_of_dbPerm h rid
  have hlen := matching_length_of_dbPerm h rid
  rcases hm : db.filter (matchesAggregation rid) with _ | ⟨f1, r1⟩
  · have hm2 : db'.filter (matchesAggregation rid) = [] := by
      have h0 : (matchingRecords db' rid).length = 0 := by
        rw [← hlen]
        unfold matchingRecords
        rw [hm]
        rfl
      exact List.length_eq_zero.mp h0
    unfold getAggregatedFeedback
    rw [hm, hm2]
  · rcases hm2 : db'.filter (matchesAggregation rid) with _ | ⟨f2, r2⟩
    · exfalso
      unfold matchingRecords at hlen
      rw [hm, hm2] at hlen
      simp at hlen
    · have hP1 : pooledResponses db rid =
          ((f1 :: r1).map (fun fb => fb.responses)).flatten := by
        unfold pooledResponses matchingRecords
        rw [hm]
      have hP2 : pooledResponses db' rid =
          ((f2 :: r2).map (fun fb => fb.responses)).flatten := by
        unfold pooledResponses matchingRecords
        rw [hm2]
      rw [hP1, hP2] at hpool
      rw [getAggregatedFeedback_eq db rid f1 r1 hm,
        getAggregatedFeedback_eq db' rid f2 r2 hm2]
      have elen := hpool.length_eq
      have edm := hpool.countP_eq (fun r => r.decision_made)
      have eai := hpool.countP_eq (fun r => r.action_items)
      have eas := hpool.countP_eq (fun r => r.could_be_async)
      have ets := hpool.countP_eq (fun r => r.meeting_length == some .tooShort)
      have ejr := hpool.countP_eq (fun r => r.meeting_length == some .justRight)
      have etl := hpool.countP_eq (fun r => r.meeting_length == some .tooLong)
      have esum := (hpool.filterMap (fun r => r.participation)).sum_eq
      simp only [Option.map_some', aggNumerics, elen, edm, eai, eas, ets,
        ejr, etl, esum]






/-- Witness for C5: swapping the two records and reversing the
responses of the first leaves the numeric aggregate unchanged. -/
theorem aggregation_order_invariant_witness :
    Option.map aggNumerics (getAggregatedFeedback [wr1, wr2] "rec-9") =
      Option.map aggNumerics (getAggregatedFeedback [wr2, wr1x] "rec-9") :=
  aggregation_order_invariant [wr1, wr2] [wr2, wr1x]
    ⟨[wr1x, wr2],
      .cons ⟨rfl, rfl, rfl, rfl, rfl, .swap _ _ _⟩
        (.cons ⟨rfl, rfl, rfl, rfl, rfl, .refl _⟩ .nil),
      .swap _ _ _⟩ "rec-9"

theorem findIdx_append_len (xs ys : List FeedbackRecord) (r : FeedbackRecord)
    (fid : String) (hxs : ∀ fb ∈ xs, (fb.id == fid) = false)
    (hr : r.id = fid) :
    (xs ++ r :: ys).findIdx (fun fb => fb.id == fid) = xs.length := by
  induction xs with
  | nil =>
    rw [List.nil_append, List.findIdx_cons, hr]
    simp
  | cons x xs ih =>
    rw [List.cons_append, List.findIdx_cons,
      hxs x (List.mem_cons_self _ _)]
    simp only [cond_false, List.length_cons]
    rw [ih (fun fb hfb => hxs fb (List.mem_cons_of_mem _ hfb))]

theorem get_append_len (xs ys : List FeedbackRecord) (r : FeedbackRecord)
    (h : xs.length < (xs ++ r :: ys).length) :
    (xs ++ r :: ys).get ⟨xs.length, h⟩ = r := by
  induction xs with
  | nil => rfl
  | cons x xs ih => exact ih _

theorem set_append_len (xs ys : List FeedbackRecord) (r v : FeedbackRecord) :
    (xs ++ r :: ys).set xs.length v = xs ++ v :: ys := by
  induction xs with
  | nil => rfl
  | cons x xs ih =>
    show x :: ((xs ++ r :: ys).set xs.length v) = x :: (xs ++ v :: ys)
    exact congrArg _ ih

theorem submitFeedback_append (xs ys : List FeedbackRecord)
    (r : FeedbackRecord) (fid : String) (resp : ResponseData)
    (hxs : ∀ fb ∈ xs, (fb.id == fid) = false) (hr : r.id = fid) :
    submitFeedback (xs ++ r :: ys) fid resp =
      (xs ++ { r with responses := r.responses ++ [resp],
                      status := "completed" } :: ys, true) := by
  have hlt : xs.length < (xs ++ r :: ys).length := by
    simp
  simp only [submitFeedback, findIdx_append_len xs ys r fid hxs hr]
  rw [dif_pos hlt, get_append_len xs ys r hlt, set_append_len]

/-- C10: a record scheduled from a meeting whose id carries no
recurringMeetingId property (a plain string id, a missing id, or an
object without the property) never matches any aggregation query, and
even after submitFeedback completes it with a response the aggregate
over the whole database equals the aggregate without the record. -/
theorem schedule_string_id_excluded (db : List FeedbackRecord)
    (fid : String) (m : ScheduleInput) (tname rid : String)
    (resp : ResponseData) (xs ys : List FeedbackRecord)
    (r : FeedbackRecord)
    (hid : ∀ v, m.id = some v → MeetingIdVal.recurringProp v = none)
    (hr : (scheduleFeedback db fid m tname).2 = some r)
    (hxs : ∀ fb ∈ xs, (fb.id == fid) = false) :
    matchesAggregation rid r = false ∧
    getAggregatedFeedback ((submitFeedback (xs ++ r :: ys) fid resp).1) rid =
      getAggregatedFeedback (xs ++ ys) rid := by
  have hrdef : r = { id := fid,
                     meetingId := jsOrNull m.id,
                     meetingTitle := m.title,
                     template := tname,
                     status := "scheduled",
                     responses := [] } := by
    unfold scheduleFeedback at hr
    split at hr
    · simp only [Option.some.injEq] at hr
      exact hr.symm
    · simp at hr
  have hprop : MeetingIdVal.recurringProp (jsOrNull m.id) = none := by
    rcases hmi : m.id with _ | v
    · rfl
    · dsimp only [jsOrNull]
      by_cases hv : v.truthy
      · rw [if_pos hv]
        exact hid v hmi
      · rw [if_neg hv]
        rfl
  have hmatch : matchesAggregation rid r = false := by
    rw [hrdef]
    simp [matchesAggregation, hprop]
  refine ⟨hmatch, ?_⟩
  rw [submitFeedback_append xs ys r fid resp hxs (by rw [hrdef])]
  exact gAF_insert_not_matching rid _
    (by rw [hrdef]; simp [matchesAggregation, hprop]) xs ys


/-- Witness for C10: a record scheduled from the mock meeting whose id
is the plain string meeting-1, then completed by submitFeedback, still
contributes nothing to the aggregation of rec-123. -/
theorem schedule_string_id_excluded_witness :
    (scheduleFeedback [] "fb-9"
        ⟨some (.str "meeting-1"), "Weekly"⟩ "standard").2 = some schedRec ∧
      matchesAggregation "rec-123" schedRec = false ∧
      getAggregatedFeedback
          ((submitFeedback ([] ++ schedRec :: []) "fb-9" respX).1) "rec-123" =
        getAggregatedFeedback ([] ++ []) "rec-123" := by
  refine ⟨rfl, schedule_string_id_excluded [] "fb-9"
    ⟨some (.str "meeting-1"), "Weekly"⟩ "standard" "rec-123" respX [] []
    schedRec (fun v hv => by cases hv; rfl) rfl (fun fb hfb => by cases hfb)⟩

theorem validateMeeting_none_iff (m : Meeting) :
    validateMeeting m = none ↔ validMeeting m := by
  unfold validateMeeting validMeeting
  split_ifs with h1 h2 h3 <;> simp <;> omega

theorem scenarioA_eval : scoreMeeting scenarioA defaultWeights =
    .ok ⟨93, "high",
      [("DECISION_MADE", 30), ("AGENDA_PROVIDED", 15), ("FOLLOW_UP_SENT", 0),
       ("COULD_BE_ASYNC", 0), ("PARTICIPATION_RATIO", 8),
       ("LONG_MEETING_PENALTY", -10)], "keep"⟩ := by
  norm_num [scoreMeeting, validateMeeting, scenarioA, defaultWeights]
  exact fun h => absurd h (by decide)

theorem scenarioB_eval : scoreMeeting scenarioB defaultWeights =
    .ok ⟨38, "low",
      [("DECISION_MADE", 0), ("AGENDA_PROVIDED", 15), ("FOLLOW_UP_SENT", 0),
       ("COULD_BE_ASYNC", -25), ("PARTICIPATION_RATIO", 8),
       ("LONG_MEETING_PENALTY", -10)], "consider-async"⟩ := by
  norm_num [scoreMeeting, validateMeeting, scenarioB, defaultWeights]
  exact fun h => absurd h (by decide)

/-- C7: every valid meeting scores within the 0 to 100 range under any
weights, the band follows the two cut points with ties resolving to the
higher band, and scenario A under the default weights scores exactly 93
with band high. -/
theorem scorer_range_band :
    (∀ (m : Meeting) (w : ScoreWeights), 0 < m.duration →
      1 ≤ m.participantCount →
      m.expectedSpeakerCount ≤ m.participantCount →
      ∃ ev, scoreMeeting m w = .ok ev ∧ 0 ≤ ev.score ∧ ev.score ≤ 100 ∧
        ev.band = (if w.highBand ≤ ev.score then "high"
          else if w.mediumBand ≤ ev.score then "medium" else "low")) ∧
    (∃ ev, scoreMeeting scenarioA defaultWeights = .ok ev ∧
      ev.score = 93 ∧ ev.band = "high") := by
  constructor
  · intro m w h1 h2 h3
    have hv : validateMeeting m = none := by
      unfold validateMeeting
      rw [if_neg (by omega), if_neg (by omega), if_neg (by omega)]
    unfold scoreMeeting
    rw [hv]
    exact ⟨_, rfl, le_max_left _ _,
      max_le (by norm_num) (min_le_left _ _), rfl⟩
  · exact ⟨_, scenarioA_eval, rfl, rfl⟩

/-- Witness for C7 at the scenario B meeting and the default weights. -/
theorem scorer_range_band_witness :
    ∃ ev, scoreMeeting scenarioB defaultWeights = .ok ev ∧
      0 ≤ ev.score ∧ ev.score ≤ 100 ∧
      ev.band = (if defaultWeights.highBand ≤ ev.score then "high"
        else if defaultWeights.mediumBand ≤ ev.score then "medium"
        else "low") :=
  scorer_range_band.1 scenarioB defaultWeights (by decide) (by decide)
    (by decide)

theorem recommend_iff (b : String) (ca : Bool) (r : String)
    (hr : r = if b == "low" && !ca then "consider-decline"
      else if ca && b != "high" then "consider-async" else "keep")
    (hb : b = "high" ∨ b = "medium" ∨ b = "low") :
    (r = "consider-decline" ↔ b = "low" ∧ ca = false) ∧
    (r = "consider-async" ↔ ca = true ∧ b ≠ "high") ∧
    (r = "keep" ↔ ¬(b = "low" ∧ ca = false) ∧
      ¬(ca = true ∧ b ≠ "high")) := by
  subst hr
  rcases hb with rfl | rfl | rfl <;> cases ca <;> decide

set_option maxHeartbeats 1600000 in
/-- C8: for every valid meeting the recommendation is consider-decline
exactly when the band is low and couldBeAsync is false, consider-async
exactly when couldBeAsync is true and the band is not high, and keep
otherwise; scenario B scores 38 with band low and recommendation
consider-async. -/
theorem scorer_recommendation_rules :
    (∀ (m : Meeting) (w : ScoreWeights), 0 < m.duration →
      1 ≤ m.participantCount →
      m.expectedSpeakerCount ≤ m.participantCount →
      ∃ ev, scoreMeeting m w = .ok ev ∧
        (ev.recommendation = "consider-decline" ↔
          ev.band = "low" ∧ m.couldBeAsync = false) ∧
        (ev.recommendation = "consider-async" ↔
          m.couldBeAsync = true ∧ ev.band ≠ "high") ∧
        (ev.recommendation = "keep" ↔
          ¬(ev.band = "low" ∧ m.couldBeAsync = false) ∧
          ¬(m.couldBeAsync = true ∧ ev.band ≠ "high"))) ∧
    (∃ ev, scoreMeeting scenarioB defaultWeights = .ok ev ∧
      ev.score = 38 ∧ ev.band = "low" ∧
      ev.recommendation = "consider-async") := by
  constructor
  · intro m w h1 h2 h3
    have hv : validateMeeting m = none := by
      unfold validateMeeting
      rw [if_neg (by omega), if_neg (by omega), if_neg (by omega)]
    unfold scoreMeeting
    rw [hv]
    refine ⟨_, rfl, ?_⟩
    exact recommend_iff _ m.couldBeAsync _ rfl (by split_ifs <;> simp)
  · exact ⟨_, scenarioB_eval, rfl, rfl, rfl⟩

/-- Witness for C8 at the scenario A meeting and the default weights. -/
theorem scorer_recommendation_rules_witness :
    ∃ ev, scoreMeeting scenarioA defaultWeights = .ok ev ∧
      (ev.recommendation = "consider-decline" ↔
        ev.band = "low" ∧ scenarioA.couldBeAsync = false) ∧
      (ev.recommendation = "consider-async" ↔
        scenarioA.couldBeAsync = true ∧ ev.band ≠ "high") ∧
      (ev.recommendation = "keep" ↔
        ¬(ev.band = "low" ∧ scenarioA.couldBeAsync = false) ∧
        ¬(scenarioA.couldBeAsync = true ∧ ev.band ≠ "high")) :=
  scorer_recommendation_rules.1 scenarioA defaultWeights (by decide)
    (by decide) (by decide)

theorem scoreMeeting_ok_of_valid (m : Meeting) (w : ScoreWeights)
    (h : validMeeting m) : ∃ ev, scoreMeeting m w = .ok ev := by
  have hv : validateMeeting m = none := (validateMeeting_none_iff m).mpr h
  unfold scoreMeeting
  rw [hv]
  exact ⟨_, rfl⟩

theorem scoreMeeting_error_not_valid (m : Meeting) (w : ScoreWeights)
    (e : ValidationIssue) (h : scoreMeeting m w = .error e) :
    ¬ validMeeting m := by
  intro hval
  obtain ⟨ev, hev⟩ := scoreMeeting_ok_of_valid m w hval
  rw [h] at hev
  exact absurd hev (by simp)

theorem evaluateAllGo_ok (w : ScoreWeights) (ms : List Meeting) (i : Nat)
    (h : ∀ m ∈ ms, validMeeting m) :
    ∃ ps, evaluateAllGo w i ms = .ok ps := by
  induction ms generalizing i with
  | nil => exact ⟨[], rfl⟩
  | cons m rest ih =>
    obtain ⟨ev, hev⟩ := scoreMeeting_ok_of_valid m w
      (h m (List.mem_cons_self _ _))
    obtain ⟨ps, hps⟩ := ih (i + 1)
      (fun x hx => h x (List.mem_cons_of_mem _ hx))
    exact ⟨(m, ev) :: ps, by simp only [evaluateAllGo, hev, hps]⟩

theorem evaluateAllGo_ok_all_valid (w : ScoreWeights) :
    ∀ (ms : List Meeting) (i : Nat) (ps : List (Meeting × MeetingEvaluation)),
      evaluateAllGo w i ms = .ok ps → ∀ m ∈ ms, validMeeting m := by
  intro ms
  induction ms with
  | nil => intro i ps h m hm; cases hm
  | cons m0 rest ih =>
    intro i ps h m hm
    unfold evaluateAllGo at h
    cases hs : scoreMeeting m0 w with
    | error err => rw [hs] at h; exact absurd h (by simp)
    | ok ev =>
      rw [hs] at h
      cases hrest : evaluateAllGo w (i + 1) rest with
      | error e2 => rw [hrest] at h; exact absurd h (by simp)
      | ok tl =>
        rcases List.mem_cons.mp hm with rfl | hm'
        · rcases hvm : validateMeeting m with _ | issue
          · exact (validateMeeting_none_iff m).mp hvm
          · exfalso
            unfold scoreMeeting at hs
            rw [hvm] at hs
            exact absurd hs (by simp)
        · exact ih (i + 1) tl hrest m hm'

theorem evaluateAllGo_error_spec (w : ScoreWeights) :
    ∀ (ms : List Meeting) (i : Nat) (e : IndexedError),
      evaluateAllGo w i ms = .error e →
      ∃ k, e.index = i + k ∧
        (∃ m, ms[k]? = some m ∧ ¬ validMeeting m) ∧
        (∀ j m, j < k → ms[j]? = some m → validMeeting m) := by
  intro ms
  induction ms with
  | nil => intro i e h; exact absurd h (by simp [evaluateAllGo])
  | cons m0 rest ih =>
    intro i e h
    unfold evaluateAllGo at h
    cases hs : scoreMeeting m0 w with
    | error err =>
      rw [hs] at h
      simp only [Except.error.injEq] at h
      refine ⟨0, ?_, ⟨m0, by simp, scoreMeeting_error_not_valid m0 w err hs⟩,
        ?_⟩
      · rw [← h]
        simp
      · intro j m hj hget
        exact absurd hj (Nat.not_lt_zero j)
    | ok ev =>
      rw [hs] at h
      cases hrest : evaluateAllGo w (i + 1) rest with
      | error e2 =>
        rw [hrest] at h
        simp only [Except.error.injEq] at h
        subst h
        obtain ⟨k, hk1, ⟨mbad, hbad, hnv⟩, hk3⟩ := ih (i + 1) e2 hrest
        refine ⟨k + 1, by omega, ⟨mbad, by simpa using hbad, hnv⟩, ?_⟩
        intro j m hj hget
        cases j with
        | zero =>
          simp only [List.getElem?_cons_zero, Option.some.injEq] at hget
          subst hget
          rcases hvm : validateMeeting m0 with _ | issue
          · exact (validateMeeting_none_iff m0).mp hvm
          · exfalso
            unfold scoreMeeting at hs
            rw [hvm] at hs
            exact absurd hs (by simp)
        | succ j' =>
          exact hk3 j' m (by omega) (by simpa using hget)
      | ok tl =>
        rw [hrest] at h
        exact absurd h (by simp)

/-- Modelled from the spec: C9, the batch evaluator is all or nothing:
it succeeds exactly when every meeting is valid, and on failure the
Except value carries only a ValidationError (never a partial summary)
whose index points at the first invalid meeting, every earlier meeting
being valid. -/
theorem evaluator_fail_fast (ms : List Meeting) (w : ScoreWeights) :
    ((∃ s, evaluateAll ms w = .ok s) ↔ (∀ m ∈ ms, validMeeting m)) ∧
    (∀ e, evaluateAll ms w = .error e →
      (∃ m, ms[e.index]? = some m ∧ ¬ validMeeting m) ∧
      (∀ j m, j < e.index → ms[j]? = some m → validMeeting m)) := by
  constructor
  · constructor
    · rintro ⟨s, hs⟩ m hm
      unfold evaluateAll at hs
      cases hg : evaluateAllGo w 0 ms with
      | error e2 => rw [hg] at hs; exact absurd hs (by simp)
      | ok ps => exact evaluateAllGo_ok_all_valid w ms 0 ps hg m hm
    · intro hall
      obtain ⟨ps, hps⟩ := evaluateAllGo_ok w ms 0 hall
      exact ⟨_, by unfold evaluateAll; rw [hps]⟩
  · intro e he
    unfold evaluateAll at he
    cases hg : evaluateAllGo w 0 ms with
    | error e2 =>
      rw [hg] at he
      simp only [Except.error.injEq] at he
      subst he
      obtain ⟨k, hk1, hk2, hk3⟩ := evaluateAllGo_error_spec w ms 0 e2 hg
      rw [hk1]
      simpa using ⟨hk2, hk3⟩
    | ok ps =>
      rw [hg] at he
      exact absurd he (by simp)


/-- Witness for C9: a singleton batch holding scenario A evaluates as a
whole, and the batch scenario A followed by an invalid meeting fails at
index 1 with the earlier meeting valid. -/
theorem evaluator_fail_fast_witness :
    (∃ s, evaluateAll [scenarioA] defaultWeights = .ok s) ∧
    ((∃ m, [scenarioA, badMeeting][(1 : Nat)]? = some m ∧
        ¬ validMeeting m) ∧
      (∀ j m, j < 1 → [scenarioA, badMeeting][j]? = some m →
        validMeeting m)) := by
  constructor
  · exact (evaluator_fail_fast [scenarioA] defaultWeights).1.mpr
      (by intro m hm; rw [List.mem_singleton.mp hm]; decide)
  · have happ := (evaluator_fail_fast [scenarioA, badMeeting]
      defaultWeights).2 ⟨1, .nonPositiveDuration⟩
    exact happ (by rfl)
